import Mathlib

/-!
Verification of the Summit Check-in & Occupancy application (`app.py`).

The development shallowly embeds the data model and the pure core of the
program: the check-in ledger (SQLite table `checkins`), the room catalog
(`rooms.csv` rows), the upsert-with-move semantics of `upsert_checkin`,
the occupancy reconciliation of `occupancy_counts` together with
`_with_filter_and_sort`, the `nearby_list` parser, the `valid_email`
policy, and the decision logic of the check-in submit handler.

Modelling conventions:
* A SQL table scan is a `List` of rows; the autoincrement surrogate `id`
  column is omitted (no logic reads it).
* `DELETE ... WHERE email = ?` followed by `INSERT` appends the fresh row
  after the surviving rows, matching insertion order of the table scan.
* pandas `groupby(["room","session"]).size()` merged onto the catalog by
  a left join is embedded as a per-catalog-entry count: the join produces
  exactly one output row per catalog row, whose `current` is the size of
  the matching group (0 when no group matches), and ledger groups absent
  from the catalog are dropped by the left join.
* The float comparison `current >= 0.9 * max_capacity` is embedded in
  exact arithmetic as `9 * max_capacity ≤ 10 * current` (both operands
  are integers in the program; the claim theorems re-express this as the
  rational inequality `0.9 * max_capacity ≤ current`).
* Python string truthiness (`if session_filter:`, `not name.strip()`)
  becomes an explicit emptiness test.
-/

namespace Summit

/-- A row of the `checkins` table (the surrogate `id` column is omitted). -/
structure CheckinRow where
  ts_utc : String
  name : String
  email : String
  attending : String
  room : String
  session : String
deriving DecidableEq

/-- A row of the room catalog `rooms.csv`:
`room_code, session, max_capacity[, nearby]`. -/
structure Room where
  room_code : String
  session : String
  max_capacity : Nat
  nearby : String
deriving DecidableEq

/-- An output row of `occupancy_counts`: a catalog row extended with the
derived `current` count and `status` label. -/
structure OccRow where
  room_code : String
  session : String
  max_capacity : Nat
  nearby : String
  current : Nat
  status : String
deriving DecidableEq

/-- The status classification applied per merged row:
`"FULL" if current >= max_capacity else ("ALMOST FULL" if current >= 0.9 *
max_capacity else "OPEN")`.  The float test `current >= 0.9 * max_capacity`
is embedded exactly as `9 * max_capacity ≤ 10 * current`. -/
def statusOf (current max_capacity : Nat) : String :=
  if max_capacity ≤ current then ("FULL")
  else if 9 * max_capacity ≤ 10 * current then ("ALMOST FULL")
  else ("OPEN")

/-- The sort key of `_with_filter_and_sort`: ascending lexicographic order
on `(session, room_code)`, as in `sort_values(["session", "room_code"])`. -/
def leRow (a b : OccRow) : Bool :=
  decide (a.session < b.session) ||
    (a.session == b.session && decide (a.room_code ≤ b.room_code))

/-- The session filter applied by `_with_filter_and_sort`: Python
`if session_filter:` treats both `None` and the empty string as no filter. -/
def applySessionFilter (df : List OccRow) (session_filter : Option String) :
    List OccRow :=
  match session_filter with
  | none => df
  | some s => if s = "" then df else df.filter (fun r => r.session == s)

/-- `_with_filter_and_sort(df, session_filter)`: optional session filter,
then sort by `(session, room_code)`. -/
def with_filter_and_sort (df : List OccRow) (session_filter : Option String) :
    List OccRow :=
  (applySessionFilter df session_filter).mergeSort leRow

/-- The base row built by `occupancy_counts` before any join:
`base["current"] = 0; base["status"] = "OPEN"`. -/
def baseRow (r : Room) : OccRow :=
  { room_code := r.room_code, session := r.session,
    max_capacity := r.max_capacity, nearby := r.nearby,
    current := 0, status := ("OPEN") }

/-- The merged row of the join path of `occupancy_counts`: `current` is the
size of the Yes-group matching `(room_code, session)` (0 when absent), and
`status` is classified from it. -/
def countRow (data : List CheckinRow) (r : Room) : OccRow :=
  let current :=
    (data.filter (fun x => x.room == r.room_code && x.session == r.session)).length
  { room_code := r.room_code, session := r.session,
    max_capacity := r.max_capacity, nearby := r.nearby,
    current := current, status := statusOf current r.max_capacity }

/-- `occupancy_counts(df_checkins, rooms_df, session_filter)`: on an empty
ledger, every catalog row at `current = 0, status = "OPEN"`; otherwise the
ledger is filtered to `attending == "Yes"`, grouped by `(room, session)`,
left-joined onto the catalog and classified. -/
def occupancy_counts (df_checkins : List CheckinRow) (rooms_df : List Room)
    (session_filter : Option String) : List OccRow :=
  if df_checkins.isEmpty then
    with_filter_and_sort (rooms_df.map baseRow) session_filter
  else
    let data := df_checkins.filter (fun x => x.attending == ("Yes"))
    with_filter_and_sort (rooms_df.map (countRow data)) session_filter

/-- `nearby_list(nearby_str)`:
`[x.strip() for x in str(nearby_str).split("|") if str(x).strip()]`. -/
def nearby_list (nearby_str : String) : List String :=
  ((nearby_str.splitOn ("|")).map String.trim).filter (fun x => x ≠ "")

/-- `upsert_checkin(name, email, attending, room, session)` at timestamp
`now_utc`: normalize the email, delete every row carrying it, append the
fresh row. -/
def upsert_checkin (l : List CheckinRow)
    (name email attending room session now_utc : String) : List CheckinRow :=
  let clean_email := email.trim.toLower
  let clean_name := name.trim
  l.filter (fun r => r.email != clean_email) ++
    [{ ts_utc := now_utc, name := clean_name, email := clean_email,
       attending := attending, room := room, session := session }]

/-- One call of the `record` operation (§4.1): the submitted fields plus the
timestamp the call draws from the clock. -/
structure Call where
  name : String
  email : String
  attending : String
  room : String
  session : String
  ts : String
deriving DecidableEq

/-- Apply one `record` call to the ledger. -/
def record (c : Call) (l : List CheckinRow) : List CheckinRow :=
  upsert_checkin l c.name c.email c.attending c.room c.session c.ts

/-- The ledger reached from the empty table by a sequence of `record` calls. -/
def applyCalls (cs : List Call) : List CheckinRow :=
  cs.foldl (fun l c => record c l) []

/-- `valid_email(e)`: trimmed-lowercased `e` must end with `"@ucr.edu"`,
contain no space, contain `"@"`, and have length at least 10. -/
def valid_email (e : String) : Bool :=
  let e := e.trim.toLower
  e.endsWith ("@ucr.edu") && !(e.contains (' ')) && e.contains ('@') &&
    decide (e.length ≥ 10)

/-- `this_row` of the check-in tab: when the URL carries a session, the
occupancy table filtered to it is probed for the URL's room; `m.iloc[0]`
of the match, `None` when there is no match or no session. -/
def this_row (l : List CheckinRow) (rooms : List Room) (room session : String) :
    Option OccRow :=
  if session = "" then none
  else ((occupancy_counts l rooms (some session)).filter
    (fun r => r.room_code == room)).head?

/-- Outcome of one press of the submit button. -/
inductive SubmitResult where
  | rejected (msg : String)
  | accepted
deriving DecidableEq

/-- The third guard of the submit handler:
`this_row is not None and this_row["status"] == "FULL" and attending == "Yes"`. -/
def full_target (l : List CheckinRow) (rooms : List Room)
    (room session attending : String) : Bool :=
  match this_row l rooms room session with
  | some r => r.status == ("FULL") && attending == ("Yes")
  | none => false

/-- The submit handler of the check-in tab (reached only when the URL's
`(room, session)` pair was validated against the catalog): empty name or
email, an invalid email, or a FULL target with Yes attendance are rejected
without touching the ledger; otherwise `upsert_checkin` runs. -/
def submit (l : List CheckinRow) (rooms : List Room)
    (name email attending room session now_utc : String) :
    SubmitResult × List CheckinRow :=
  if name.trim = "" || email.trim = "" then
    (.rejected ("Please provide your Name and Email."), l)
  else if !(valid_email email) then
    (.rejected ("Please use your UCR email address (must end with @ucr.edu)."), l)
  else if full_target l rooms room session attending then
    (.rejected ("This room is already FULL. Please choose a nearby room."), l)
  else
    (.accepted, upsert_checkin l name email attending room session now_utc)

/-- The row `occupancy_counts` emits for a catalog entry: the base row on the
empty branch, the merged row on the join branch. -/
def rowFn (l : List CheckinRow) (r : Room) : OccRow :=
  if l.isEmpty then baseRow r
  else countRow (l.filter (fun x => x.attending == ("Yes"))) r

/-- The key of an output row: its copy of the catalog columns. -/
def keyOf (o : OccRow) : String × String × Nat × String :=
  (o.room_code, o.session, o.max_capacity, o.nearby)

/-- The catalog columns of a catalog entry. -/
def roomKey (r : Room) : String × String × Nat × String :=
  (r.room_code, r.session, r.max_capacity, r.nearby)

/-- Whether a ledger row's `(room, session)` pair appears in the catalog. -/
def inCatalog (cat : List Room) (x : CheckinRow) : Bool :=
  cat.any (fun c => c.room_code == x.room && c.session == x.session)

theorem occupancy_eq (l : List CheckinRow) (cat : List Room)
    (f : Option String) :
    occupancy_counts l cat f = with_filter_and_sort (cat.map (rowFn l)) f := by
  unfold occupancy_counts
  by_cases h : l.isEmpty
  · rw [if_pos h]
    congr 1
    apply List.map_congr_left
    intro r _
    simp [rowFn, h]
  · rw [if_neg h]
    show with_filter_and_sort _ f = _
    congr 1
    apply List.map_congr_left
    intro r _
    simp [rowFn, h]

theorem with_filter_and_sort_perm (df : List OccRow) (f : Option String) :
    (with_filter_and_sort df f).Perm (applySessionFilter df f) :=
  List.mergeSort_perm _ _

theorem mem_applySessionFilter {df : List OccRow} {f : Option String}
    {x : OccRow} (h : x ∈ applySessionFilter df f) : x ∈ df := by
  match f with
  | none => exact h
  | some s =>
    by_cases hs : s = ""
    · simpa [applySessionFilter, hs] using h
    · simp only [applySessionFilter, if_neg hs] at h
      exact (List.mem_filter.1 h).1

theorem mem_occupancy {l : List CheckinRow} {cat : List Room}
    {f : Option String} {row : OccRow}
    (h : row ∈ occupancy_counts l cat f) : ∃ r ∈ cat, row = rowFn l r := by
  rw [occupancy_eq] at h
  have h2 := mem_applySessionFilter
    ((with_filter_and_sort_perm _ f).mem_iff.1 h)
  obtain ⟨r, hr, hrow⟩ := List.mem_map.1 h2
  exact ⟨r, hr, hrow.symm⟩

theorem rowFn_room_code (l : List CheckinRow) (r : Room) :
    (rowFn l r).room_code = r.room_code := by
  unfold rowFn; split <;> rfl

theorem rowFn_session (l : List CheckinRow) (r : Room) :
    (rowFn l r).session = r.session := by
  unfold rowFn; split <;> rfl

theorem rowFn_max_capacity (l : List CheckinRow) (r : Room) :
    (rowFn l r).max_capacity = r.max_capacity := by
  unfold rowFn; split <;> rfl

theorem keyOf_rowFn (l : List CheckinRow) (r : Room) :
    keyOf (rowFn l r) = roomKey r := by
  unfold rowFn; split <;> rfl

theorem rowFn_current (l : List CheckinRow) (r : Room) :
    (rowFn l r).current =
      (l.filter (fun x => (x.room == r.room_code && x.session == r.session)
        && x.attending == ("Yes"))).length := by
  unfold rowFn
  split
  · next h =>
    rw [List.isEmpty_iff.1 h]
    rfl
  · simp [countRow, List.filter_filter]

theorem record_pairwise_email (c : Call) (l : List CheckinRow)
    (h : l.Pairwise (fun a b => a.email ≠ b.email)) :
    (record c l).Pairwise (fun a b => a.email ≠ b.email) := by
  unfold record upsert_checkin
  rw [List.pairwise_append]
  refine ⟨List.Pairwise.sublist (List.filter_sublist l) h,
    List.pairwise_singleton _ _, ?_⟩
  intro a ha b hb
  rw [List.mem_singleton] at hb
  subst hb
  have := (List.mem_filter.1 ha).2
  simpa [bne_iff_ne] using this

theorem applyCalls_pairwise_email (cs : List Call) :
    (applyCalls cs).Pairwise (fun a b => a.email ≠ b.email) := by
  have aux : ∀ (cs : List Call) (l : List CheckinRow),
      l.Pairwise (fun a b => a.email ≠ b.email) →
      (cs.foldl (fun l c => record c l) l).Pairwise
        (fun a b => a.email ≠ b.email) := by
    intro cs
    induction cs with
    | nil => intro l h; exact h
    | cons c cs ih =>
      intro l h
      exact ih _ (record_pairwise_email c l h)
  exact aux cs [] (List.Pairwise.nil)

theorem record_overwrite (c c' : Call) (l : List CheckinRow)
    (h : c.email.trim.toLower = c'.email.trim.toLower) :
    record c' (record c l) = record c' l := by
  simp only [record, upsert_checkin, h, List.filter_append, List.filter_filter,
    List.filter_cons, List.filter_nil, bne_self_eq_false, Bool.and_self]
  simp

theorem occ_snoc_congr (A : List CheckinRow) (x y : CheckinRow)
    (cat : List Room) (f : Option String)
    (hatt : x.attending = y.attending) (hroom : x.room = y.room)
    (hses : x.session = y.session) :
    occupancy_counts (A ++ [x]) cat f = occupancy_counts (A ++ [y]) cat f := by
  rw [occupancy_eq, occupancy_eq]
  congr 1
  apply List.map_congr_left
  intro r _
  have hne : (A ++ [x]).isEmpty = false := by simp
  have hne' : (A ++ [y]).isEmpty = false := by simp
  simp only [rowFn, hne, hne', Bool.false_eq_true, if_false]
  simp only [countRow, List.filter_filter, List.filter_append, List.filter_cons,
    List.filter_nil, List.length_append, hatt, hroom, hses]
  by_cases hy : (y.attending == ("Yes")) = true
  · simp only [hy, if_true, List.filter_cons, List.filter_nil, hroom, hses]
    simp [apply_ite (List.length (α := CheckinRow))]
  · simp [hy]

theorem rowFn_status (l : List CheckinRow) (r : Room) :
    (rowFn l r).status = ("OPEN") ∨
      (rowFn l r).status = statusOf (rowFn l r).current r.max_capacity := by
  unfold rowFn
  split
  · exact Or.inl rfl
  · exact Or.inr rfl

theorem almost_thresh_rat (c m : Nat) :
    9 * m ≤ 10 * c ↔ (0.9 : ℚ) * (m : ℚ) ≤ (c : ℚ) := by
  rw [show (0.9 : ℚ) = 9 / 10 from by norm_num]
  rw [div_mul_eq_mul_div, div_le_iff₀ (show (0 : ℚ) < 10 from by norm_num)]
  rw [show ((c : ℚ) * 10) = ((10 * c : Nat) : ℚ) from by push_cast; ring,
    show ((9 : ℚ) * (m : ℚ)) = ((9 * m : Nat) : ℚ) from by push_cast; ring]
  exact Nat.cast_le.symm

theorem open_thresh_rat (c m : Nat) :
    10 * c < 9 * m ↔ (c : ℚ) < (0.9 : ℚ) * (m : ℚ) := by
  rw [← not_le, ← not_le, almost_thresh_rat]

theorem statusOf_cases (c m : Nat) :
    ((statusOf c m = ("FULL")) ↔ m ≤ c) ∧
    ((statusOf c m = ("ALMOST FULL")) ↔ c < m ∧ 9 * m ≤ 10 * c) ∧
    ((statusOf c m = ("OPEN")) ↔ c < m ∧ 10 * c < 9 * m) := by
  unfold statusOf
  by_cases h1 : m ≤ c
  · rw [if_pos h1]
    refine ⟨by simp [h1], ?_, ?_⟩
    · constructor
      · intro h'; exact absurd h' (by decide)
      · rintro ⟨h2, _⟩; exact absurd h1 (by omega)
    · constructor
      · intro h'; exact absurd h' (by decide)
      · rintro ⟨h2, _⟩; exact absurd h1 (by omega)
  · rw [if_neg h1]
    by_cases h2 : 9 * m ≤ 10 * c
    · rw [if_pos h2]
      refine ⟨?_, ?_, ?_⟩
      · constructor
        · intro h'; exact absurd h' (by decide)
        · intro h'; exact absurd h' h1
      · constructor
        · intro _; exact ⟨by omega, h2⟩
        · intro _; rfl
      · constructor
        · intro h'; exact absurd h' (by decide)
        · rintro ⟨_, h3⟩; exact absurd h2 (by omega)
    · rw [if_neg h2]
      refine ⟨?_, ?_, ?_⟩
      · constructor
        · intro h'; exact absurd h' (by decide)
        · intro h'; exact absurd h' h1
      · constructor
        · intro h'; exact absurd h' (by decide)
        · rintro ⟨_, h3⟩; exact absurd h3 h2
      · constructor
        · intro _; exact ⟨by omega, by omega⟩
        · intro _; rfl

/-- C1: for every sequence of `record` (`upsert_checkin`) calls starting from
the empty ledger, at most one ledger row exists per distinct normalized email
(the emails of the rows are pairwise distinct), and when two calls share the
same normalized email only the most recent one is reflected in
`occupancy_counts`: appending `c` before `c'` yields the same occupancy
output as appending `c'` alone. -/
theorem claim_C1 :
    (∀ cs : List Call,
      (applyCalls cs).Pairwise (fun a b => a.email ≠ b.email)) ∧
    (∀ (cs : List Call) (c c' : Call) (cat : List Room) (f : Option String),
      c.email.trim.toLower = c'.email.trim.toLower →
      occupancy_counts (applyCalls (cs ++ [c, c'])) cat f =
        occupancy_counts (applyCalls (cs ++ [c'])) cat f) := by
  constructor
  · exact applyCalls_pairwise_email
  · intro cs c c' cat f h
    have h1 : applyCalls (cs ++ [c, c']) =
        record c' (record c (applyCalls cs)) := by
      simp [applyCalls, List.foldl_append]
    have h2 : applyCalls (cs ++ [c']) = record c' (applyCalls cs) := by
      simp [applyCalls, List.foldl_append]
    rw [h1, h2, record_overwrite c c' _ h]

/-- Witness for C1 at a concrete input: two calls with the same email, the
first of which targets a different room with a different attendance. -/
theorem claim_C1_witness :
    (applyCalls [(⟨"A", "e@x", "Yes", "R", "S", "t1"⟩ : Call)]).Pairwise
      (fun a b => a.email ≠ b.email) ∧
    occupancy_counts (applyCalls ([] ++
      [(⟨"A", "e@x", "Yes", "R", "S", "t1"⟩ : Call),
       (⟨"B", "e@x", "No", "R2", "S", "t2"⟩ : Call)])) [] none =
      occupancy_counts (applyCalls ([] ++
        [(⟨"B", "e@x", "No", "R2", "S", "t2"⟩ : Call)])) [] none :=
  ⟨claim_C1.1 _, claim_C1.2 [] _ _ [] none rfl⟩

/-- C3: `occupancy_counts` on the empty ledger is a permutation of the
catalog, every entry carried over exactly once with `current = 0` and
`status = "OPEN"`. -/
theorem claim_C3 (cat : List Room) :
    (occupancy_counts ([] : List CheckinRow) cat none).Perm
      (cat.map (fun r =>
        (⟨r.room_code, r.session, r.max_capacity, r.nearby, 0, "OPEN"⟩ :
          OccRow))) := by
  rw [occupancy_eq]
  have h := with_filter_and_sort_perm
    (cat.map (rowFn ([] : List CheckinRow))) none
  have heq : cat.map (rowFn ([] : List CheckinRow)) =
      cat.map (fun r =>
        (⟨r.room_code, r.session, r.max_capacity, r.nearby, 0, "OPEN"⟩ :
          OccRow)) :=
    List.map_congr_left (fun r _ => rfl)
  simp only [applySessionFilter] at h
  rw [heq] at h
  exact h

/-- C7: calling `upsert_checkin` twice in succession with the same arguments
(but fresh timestamps) yields the same `occupancy_counts` output as calling
it once. -/
theorem claim_C7 (l : List CheckinRow) (cat : List Room) (f : Option String)
    (name email attending room session ts₁ ts₂ : String) :
    occupancy_counts (upsert_checkin
        (upsert_checkin l name email attending room session ts₁)
        name email attending room session ts₂) cat f =
      occupancy_counts (upsert_checkin l name email attending room session ts₁)
        cat f := by
  have hshape : upsert_checkin
      (upsert_checkin l name email attending room session ts₁)
      name email attending room session ts₂ =
      (l.filter (fun r => r.email != email.trim.toLower)) ++
        [(⟨ts₂, name.trim, email.trim.toLower, attending, room, session⟩ :
          CheckinRow)] := by
    simp [upsert_checkin, List.filter_append, List.filter_filter]
  have hshape1 : upsert_checkin l name email attending room session ts₁ =
      (l.filter (fun r => r.email != email.trim.toLower)) ++
        [(⟨ts₁, name.trim, email.trim.toLower, attending, room, session⟩ :
          CheckinRow)] := rfl
  rw [hshape, hshape1]
  exact occ_snoc_congr _ _ _ cat f rfl rfl rfl

/-- C2: every output row of `occupancy_counts` with a positive capacity (the
catalog's data model requires `max_capacity > 0`) is classified `"FULL"` iff
`current >= max_capacity`, `"ALMOST FULL"` iff `current < max_capacity` yet
`current >= 0.9 * max_capacity`, and `"OPEN"` otherwise; the emitted status
is always one of the three labels; and at `max_capacity = 10` a count of 9
classifies `"ALMOST FULL"`, 10 `"FULL"`, 8 `"OPEN"`. -/
theorem claim_C2 :
    (∀ (l : List CheckinRow) (cat : List Room) (f : Option String)
      (row : OccRow), row ∈ occupancy_counts l cat f →
      0 < row.max_capacity →
      ((row.status = ("FULL") ↔ row.max_capacity ≤ row.current) ∧
       (row.status = ("ALMOST FULL") ↔
         (row.current < row.max_capacity ∧
           (0.9 : ℚ) * (row.max_capacity : ℚ) ≤ (row.current : ℚ))) ∧
       (row.status = ("OPEN") ↔
         (row.current < row.max_capacity ∧
           (row.current : ℚ) < (0.9 : ℚ) * (row.max_capacity : ℚ))) ∧
       (row.status = ("OPEN") ∨ row.status = ("ALMOST FULL") ∨
         row.status = ("FULL")))) ∧
    statusOf 9 10 = ("ALMOST FULL") ∧ statusOf 10 10 = ("FULL") ∧
    statusOf 8 10 = ("OPEN") := by
  refine ⟨?_, by decide, by decide, by decide⟩
  intro l cat f row hmem hm
  obtain ⟨r, hr, rfl⟩ := mem_occupancy hmem
  rw [rowFn_max_capacity] at hm
  by_cases hl : l.isEmpty
  · simp only [rowFn, hl, if_true, baseRow, rowFn_max_capacity]
    have hq : (1 : ℚ) ≤ (r.max_capacity : ℚ) := by exact_mod_cast hm
    refine ⟨?_, ?_, ?_, Or.inl (by simp)⟩
    · constructor
      · intro h'; exact absurd h' (by decide)
      · intro h'; exact absurd hm (by omega)
    · constructor
      · intro h'; exact absurd h' (by decide)
      · rintro ⟨_, h2⟩; nlinarith
    · exact ⟨fun _ => ⟨hm, by nlinarith⟩, fun _ => by simp⟩
  · simp only [rowFn, hl, if_false, countRow, rowFn_max_capacity,
      Bool.false_eq_true]
    obtain ⟨h1, h2, h3⟩ := statusOf_cases
      ((List.filter (fun x => x.room == r.room_code && x.session == r.session)
        (List.filter (fun x => x.attending == ("Yes")) l)).length)
      r.max_capacity
    refine ⟨h1, ?_, ?_, ?_⟩
    · rw [h2, almost_thresh_rat]
    · rw [h3, open_thresh_rat]
    · unfold statusOf
      split
      · exact Or.inr (Or.inr rfl)
      · split
        · exact Or.inr (Or.inl rfl)
        · exact Or.inl rfl

unseal List.merge List.mergeSort String.ltb in
/-- Witness for C2's universal part: the sole output row on an empty ledger
with capacity 10 carries one of the three status labels. -/
theorem claim_C2_witness :
    (⟨"R", "S", 10, "", 0, "OPEN"⟩ : OccRow).status = ("OPEN") ∨
      (⟨"R", "S", 10, "", 0, "OPEN"⟩ : OccRow).status = ("ALMOST FULL") ∨
      (⟨"R", "S", 10, "", 0, "OPEN"⟩ : OccRow).status = ("FULL") :=
  (claim_C2.1 [] [(⟨"R", "S", 10, ""⟩ : Room)] none _ (by decide)
    (by decide)).2.2.2

/-- C4: the unfiltered `occupancy_counts` output carries every catalog entry
exactly once (as a permutation of the catalog's key columns), and under a
session filter it carries exactly the catalog entries of that session. -/
theorem claim_C4 :
    (∀ (l : List CheckinRow) (cat : List Room),
      ((occupancy_counts l cat none).map keyOf).Perm (cat.map roomKey)) ∧
    (∀ (l : List CheckinRow) (cat : List Room) (s : String), s ≠ "" →
      ((occupancy_counts l cat (some s)).map keyOf).Perm
        ((cat.filter (fun r => r.session == s)).map roomKey)) := by
  constructor
  · intro l cat
    rw [occupancy_eq]
    have h := (with_filter_and_sort_perm (cat.map (rowFn l)) none).map keyOf
    simp only [applySessionFilter] at h
    rw [List.map_map] at h
    have heq : cat.map (keyOf ∘ rowFn l) = cat.map roomKey :=
      List.map_congr_left (fun r _ => keyOf_rowFn l r)
    rw [heq] at h
    exact h
  · intro l cat s hs
    rw [occupancy_eq]
    have h := (with_filter_and_sort_perm (cat.map (rowFn l)) (some s)).map keyOf
    simp only [applySessionFilter, if_neg hs] at h
    rw [List.filter_map, List.map_map] at h
    have hfil : cat.filter ((fun r => r.session == s) ∘ rowFn l) =
        cat.filter (fun r => r.session == s) :=
      List.filter_congr (fun r _ => by
        simp [Function.comp, rowFn_session])
    rw [hfil] at h
    have heq : (cat.filter (fun r => r.session == s)).map (keyOf ∘ rowFn l) =
        (cat.filter (fun r => r.session == s)).map roomKey :=
      List.map_congr_left (fun r _ => keyOf_rowFn l r)
    rw [heq] at h
    exact h

unseal List.merge List.mergeSort String.ltb in
/-- Witness for C4's filtered part at a two-entry catalog and session
filter `"S"`. -/
theorem claim_C4_witness :
    ((occupancy_counts [] [(⟨"R", "S", 5, ""⟩ : Room),
        (⟨"R2", "T", 5, ""⟩ : Room)] (some "S")).map keyOf).Perm
      (([(⟨"R", "S", 5, ""⟩ : Room), (⟨"R2", "T", 5, ""⟩ : Room)].filter
        (fun r => r.session == ("S"))).map roomKey) :=
  claim_C4.2 [] _ _ (by decide)

/-- C5: the `current` count of every output row of `occupancy_counts` counts
exactly the ledger rows matching the row's `(room, session)` whose
`attending` is `"Yes"`; rows with `attending = "No"` never contribute. -/
theorem claim_C5 (l : List CheckinRow) (cat : List Room) (f : Option String)
    (row : OccRow) (h : row ∈ occupancy_counts l cat f) :
    row.current = (l.filter (fun x =>
      (x.room == row.room_code && x.session == row.session) &&
        x.attending == ("Yes"))).length := by
  obtain ⟨r, hr, rfl⟩ := mem_occupancy h
  rw [rowFn_room_code, rowFn_session]
  exact rowFn_current l r

unseal List.merge List.mergeSort String.ltb in
/-- Witness for C5: a ledger holding one Yes-row and one No-row for the same
room and session yields `current = 1`, the length of the Yes-only match. -/
theorem claim_C5_witness :
    (⟨"R", "S", 2, "", 1, "OPEN"⟩ : OccRow) ∈
      occupancy_counts
        [(⟨"t1", "n", "a@x", "Yes", "R", "S"⟩ : CheckinRow),
         (⟨"t2", "m", "b@x", "No", "R", "S"⟩ : CheckinRow)]
        [(⟨"R", "S", 2, ""⟩ : Room)] none ∧
    (⟨"R", "S", 2, "", 1, "OPEN"⟩ : OccRow).current =
      ([(⟨"t1", "n", "a@x", "Yes", "R", "S"⟩ : CheckinRow),
        (⟨"t2", "m", "b@x", "No", "R", "S"⟩ : CheckinRow)].filter (fun x =>
        (x.room == (⟨"R", "S", 2, "", 1, "OPEN"⟩ : OccRow).room_code &&
          x.session == (⟨"R", "S", 2, "", 1, "OPEN"⟩ : OccRow).session) &&
          x.attending == ("Yes"))).length :=
  ⟨by decide,
    claim_C5
      [(⟨"t1", "n", "a@x", "Yes", "R", "S"⟩ : CheckinRow),
       (⟨"t2", "m", "b@x", "No", "R", "S"⟩ : CheckinRow)]
      [(⟨"R", "S", 2, ""⟩ : Room)] none
      (⟨"R", "S", 2, "", 1, "OPEN"⟩ : OccRow) (by decide)⟩

/-- C8: when the target row's computed status is `"FULL"` and the submitted
attendance is `"Yes"`, the submission is rejected — the ledger is returned
unchanged and the result is never `accepted` — and, when the earlier form
checks pass, the rejection carries the message directing the attendee to a
nearby room. -/
theorem claim_C8 (l : List CheckinRow) (rooms : List Room)
    (name email attending room session now_utc : String)
    (hfull : ∃ r, this_row l rooms room session = some r ∧
      r.status = ("FULL"))
    (hyes : attending = ("Yes")) :
    (submit l rooms name email attending room session now_utc).2 = l ∧
    (submit l rooms name email attending room session now_utc).1 ≠
      SubmitResult.accepted ∧
    (name.trim ≠ "" → email.trim ≠ "" → valid_email email = true →
      (submit l rooms name email attending room session now_utc).1 =
        SubmitResult.rejected
          ("This room is already FULL. Please choose a nearby room.")) := by
  obtain ⟨r, hr, hst⟩ := hfull
  have hft : full_target l rooms room session attending = true := by
    unfold full_target
    rw [hr]
    simp [hst, hyes]
  unfold submit
  rw [hft]
  simp only [if_true]
  split_ifs with h1 h2
  · refine ⟨rfl, by simp, ?_⟩
    intro hn he _
    simp only [Bool.or_eq_true, decide_eq_true_eq] at h1
    rcases h1 with h1 | h1
    · exact absurd h1 hn
    · exact absurd h1 he
  · refine ⟨rfl, by simp, ?_⟩
    intro _ _ hv
    simp [hv] at h2
  · exact ⟨rfl, by simp, fun _ _ _ => rfl⟩

unseal List.merge List.mergeSort String.ltb Substring.takeWhileAux
  Substring.takeRightWhileAux String.mapAux String.substrEq.loop
  String.anyAux in
/-- Witness for C8: a one-seat room already holding a Yes check-in rejects a
further Yes submission and leaves the ledger unchanged. -/
theorem claim_C8_witness :
    (submit [(⟨"t0", "n", "x@ucr.edu", "Yes", "R1", "S1"⟩ : CheckinRow)]
        [(⟨"R1", "S1", 1, "R2"⟩ : Room)]
        ("Bob") ("bob@ucr.edu") ("Yes") ("R1") ("S1") ("t1")).2 =
      [(⟨"t0", "n", "x@ucr.edu", "Yes", "R1", "S1"⟩ : CheckinRow)] ∧
    (submit [(⟨"t0", "n", "x@ucr.edu", "Yes", "R1", "S1"⟩ : CheckinRow)]
        [(⟨"R1", "S1", 1, "R2"⟩ : Room)]
        ("Bob") ("bob@ucr.edu") ("Yes") ("R1") ("S1") ("t1")).1 ≠
      SubmitResult.accepted ∧
    (("Bob" : String).trim ≠ "" → ("bob@ucr.edu" : String).trim ≠ "" →
      valid_email ("bob@ucr.edu") = true →
      (submit [(⟨"t0", "n", "x@ucr.edu", "Yes", "R1", "S1"⟩ : CheckinRow)]
          [(⟨"R1", "S1", 1, "R2"⟩ : Room)]
          ("Bob") ("bob@ucr.edu") ("Yes") ("R1") ("S1") ("t1")).1 =
        SubmitResult.rejected
          ("This room is already FULL. Please choose a nearby room.")) :=
  claim_C8 _ _ ("Bob") ("bob@ucr.edu") ("Yes") ("R1") ("S1") ("t1")
    ⟨(⟨"R1", "S1", 1, "R2", 1, "FULL"⟩ : OccRow), by decide, rfl⟩ rfl

unseal Substring.takeWhileAux Substring.takeRightWhileAux String.mapAux
  String.substrEq.loop String.anyAux in
theorem valid_email_short : valid_email ("a@ucr.edu") = false := by decide

unseal Substring.takeWhileAux Substring.takeRightWhileAux String.mapAux
  String.substrEq.loop in
theorem endsWith_short :
    ("a@ucr.edu" : String).trim.toLower.endsWith ("@ucr.edu") = true := by
  decide

unseal Substring.takeWhileAux Substring.takeRightWhileAux in
theorem trim_short_ne : ("a@ucr.edu" : String).trim ≠ "" := by decide

/-- C9: `valid_email` is strictly stronger than the `@ucr.edu` suffix check:
every accepted address has the suffix, no space, an `@`, and length at least
10 after normalization; the 9-character `"a@ucr.edu"` has the suffix yet is
rejected, and submitting it is refused with the email message, leaving the
ledger untouched. -/
theorem claim_C9 :
    (∀ e : String, valid_email e = true →
      (e.trim.toLower.endsWith ("@ucr.edu") = true ∧
       e.trim.toLower.contains (' ') = false ∧
       e.trim.toLower.contains ('@') = true ∧
       10 ≤ e.trim.toLower.length)) ∧
    valid_email ("a@ucr.edu") = false ∧
    ("a@ucr.edu" : String).trim.toLower.endsWith ("@ucr.edu") = true ∧
    (∀ (l : List CheckinRow) (rooms : List Room)
      (name attending room session now_utc : String), name.trim ≠ "" →
      (submit l rooms name ("a@ucr.edu") attending room session now_utc).1 =
        SubmitResult.rejected
          ("Please use your UCR email address (must end with @ucr.edu).") ∧
      (submit l rooms name ("a@ucr.edu") attending room session now_utc).2 =
        l) := by
  refine ⟨?_, valid_email_short, endsWith_short, ?_⟩
  · intro e hv
    simp only [valid_email, Bool.and_eq_true, Bool.not_eq_true',
      decide_eq_true_eq] at hv
    exact ⟨hv.1.1.1, hv.1.1.2, hv.1.2, hv.2⟩
  · intro l rooms name attending room session now_utc hn
    have hne : (!valid_email ("a@ucr.edu")) = true := by
      rw [valid_email_short]; rfl
    unfold submit
    split_ifs with h1
    · simp only [Bool.or_eq_true, decide_eq_true_eq] at h1
      rcases h1 with h1 | h1
      · exact absurd h1 hn
      · exact absurd h1 trim_short_ne
    · exact ⟨rfl, rfl⟩

unseal Substring.takeWhileAux Substring.takeRightWhileAux String.mapAux
  String.substrEq.loop String.anyAux in
/-- Witness for C9: the 10-character `"ab@ucr.edu"` passes `valid_email`, so
the four conditions hold of it; submitting `"a@ucr.edu"` with a non-empty
name is rejected with the email message without a ledger write. -/
theorem claim_C9_witness :
    (("ab@ucr.edu" : String).trim.toLower.endsWith ("@ucr.edu") = true ∧
     ("ab@ucr.edu" : String).trim.toLower.contains (' ') = false ∧
     ("ab@ucr.edu" : String).trim.toLower.contains ('@') = true ∧
     10 ≤ ("ab@ucr.edu" : String).trim.toLower.length) ∧
    ((submit [] [] ("Bob") ("a@ucr.edu") ("Yes") ("R") ("S") ("t")).1 =
      SubmitResult.rejected
        ("Please use your UCR email address (must end with @ucr.edu).") ∧
     (submit [] [] ("Bob") ("a@ucr.edu") ("Yes") ("R") ("S") ("t")).2 = []) :=
  ⟨claim_C9.1 ("ab@ucr.edu") (by decide),
   claim_C9.2.2.2 [] [] ("Bob") ("Yes") ("R") ("S") ("t") (by decide)⟩

/-- C10: ledger rows whose `(room, session)` pair is absent from the catalog
are dropped by the left join: every output row's key columns come from a
catalog entry, every output row's `current` is unchanged when the ledger is
restricted to rows whose pair appears in the catalog, and the number of
output rows does not depend on the ledger at all. -/
theorem claim_C10 :
    (∀ (l : List CheckinRow) (cat : List Room) (f : Option String)
      (row : OccRow), row ∈ occupancy_counts l cat f →
      ∃ c ∈ cat, row.room_code = c.room_code ∧ row.session = c.session) ∧
    (∀ (l : List CheckinRow) (cat : List Room) (f : Option String)
      (row : OccRow), row ∈ occupancy_counts l cat f →
      row.current = ((l.filter (fun x => inCatalog cat x)).filter (fun x =>
        (x.room == row.room_code && x.session == row.session) &&
          x.attending == ("Yes"))).length) ∧
    (∀ (l l' : List CheckinRow) (cat : List Room) (f : Option String),
      (occupancy_counts l cat f).length =
        (occupancy_counts l' cat f).length) := by
  refine ⟨?_, ?_, ?_⟩
  · intro l cat f row h
    obtain ⟨r, hr, rfl⟩ := mem_occupancy h
    exact ⟨r, hr, rowFn_room_code l r, rowFn_session l r⟩
  · intro l cat f row h
    obtain ⟨r, hr, rfl⟩ := mem_occupancy h
    rw [rowFn_room_code, rowFn_session, rowFn_current, List.filter_filter]
    apply congrArg List.length
    apply List.filter_congr
    intro x hx
    cases hb : ((x.room == r.room_code && x.session == r.session) &&
        x.attending == ("Yes")) with
    | false => simp
    | true =>
      simp only [Bool.and_eq_true, beq_iff_eq] at hb
      have hq : inCatalog cat x = true := by
        unfold inCatalog
        rw [List.any_eq_true]
        exact ⟨r, hr, by simp [hb.1.1, hb.1.2]⟩
      simp [hq]
  · intro l l' cat f
    rw [occupancy_eq, occupancy_eq]
    unfold with_filter_and_sort
    rw [List.length_mergeSort, List.length_mergeSort]
    cases f with
    | none => simp [applySessionFilter]
    | some s =>
      by_cases hs : s = ""
      · simp [applySessionFilter, hs]
      · simp only [applySessionFilter, if_neg hs]
        rw [List.filter_map, List.filter_map, List.length_map, List.length_map]
        rw [show cat.filter ((fun r => r.session == s) ∘ rowFn l) =
              cat.filter (fun r => r.session == s) from
            List.filter_congr (fun r _ => by
              simp [Function.comp, rowFn_session])]
        rw [show cat.filter ((fun r => r.session == s) ∘ rowFn l') =
              cat.filter (fun r => r.session == s) from
            List.filter_congr (fun r _ => by
              simp [Function.comp, rowFn_session])]

unseal List.merge List.mergeSort String.ltb in
/-- Witness for C10: a ledger row targeting `(RX, SX)`, absent from the
one-entry catalog, produces no output row and leaves `current = 0`. -/
theorem claim_C10_witness :
    (∃ c ∈ [(⟨"R", "S", 2, ""⟩ : Room)],
      (⟨"R", "S", 2, "", 0, "OPEN"⟩ : OccRow).room_code = c.room_code ∧
      (⟨"R", "S", 2, "", 0, "OPEN"⟩ : OccRow).session = c.session) ∧
    (⟨"R", "S", 2, "", 0, "OPEN"⟩ : OccRow).current =
      ((([(⟨"tz", "n", "z@x", "Yes", "RX", "SX"⟩ : CheckinRow)].filter
        (fun x => inCatalog [(⟨"R", "S", 2, ""⟩ : Room)] x)).filter (fun x =>
        (x.room == (⟨"R", "S", 2, "", 0, "OPEN"⟩ : OccRow).room_code &&
          x.session == (⟨"R", "S", 2, "", 0, "OPEN"⟩ : OccRow).session) &&
          x.attending == ("Yes"))).length) :=
  ⟨claim_C10.1 [(⟨"tz", "n", "z@x", "Yes", "RX", "SX"⟩ : CheckinRow)]
      [(⟨"R", "S", 2, ""⟩ : Room)] none _ (by decide),
   claim_C10.2.1 [(⟨"tz", "n", "z@x", "Yes", "RX", "SX"⟩ : CheckinRow)]
      [(⟨"R", "S", 2, ""⟩ : Room)] none _ (by decide)⟩

theorem map_trim_filter_eq_filterMap (ts : List String) :
    (ts.map String.trim).filter (fun x => x ≠ "") =
      ts.filterMap (fun t => if t.trim = "" then none else some t.trim) := by
  induction ts with
  | nil => rfl
  | cons t ts ih =>
    by_cases h : t.trim = ""
    · have hd : (decide (t.trim ≠ "")) = false := by simp [h]
      simp only [List.map_cons, List.filter_cons, List.filterMap_cons, hd,
        Bool.false_eq_true, if_false, if_pos h]
      exact ih
    · have hd : (decide (t.trim ≠ "")) = true := by simp [h]
      simp only [List.map_cons, List.filter_cons, List.filterMap_cons, hd,
        if_true, if_neg h]
      rw [ih]

theorem splitOnAux_no_pipe : ∀ (l₂ l₁ : List Char),
    (∀ c ∈ l₂, c ≠ '|') →
    String.splitOnAux ⟨l₁ ++ l₂⟩ ("|") 0 ⟨String.utf8Len l₁⟩ 0 [] =
      [⟨l₁ ++ l₂⟩]
  | [], l₁, _ => by
    unfold String.splitOnAux
    have hEnd : String.atEnd ⟨l₁ ++ []⟩ ⟨String.utf8Len l₁⟩ = true :=
      (String.atEnd_of_valid l₁ []).2 rfl
    rw [if_pos hEnd]
    simp only [List.reverse_cons, List.reverse_nil, List.nil_append]
    rw [show (⟨String.utf8Len l₁⟩ : String.Pos) =
      String.endPos ⟨l₁ ++ []⟩ from by simp]
    rw [String.extract_zero_endPos]
  | c :: l₂, l₁, h => by
    unfold String.splitOnAux
    have hEnd : String.atEnd ⟨l₁ ++ c :: l₂⟩ ⟨String.utf8Len l₁⟩ = false := by
      rw [Bool.eq_false_iff]
      intro hab
      exact absurd ((String.atEnd_of_valid l₁ (c :: l₂)).1 hab) (by simp)
    rw [if_neg (by simp [hEnd])]
    have hget : String.get ⟨l₁ ++ c :: l₂⟩ ⟨String.utf8Len l₁⟩ = c := by
      simpa using String.get_of_valid l₁ (c :: l₂)
    have hcne : (String.get ⟨l₁ ++ c :: l₂⟩ ⟨String.utf8Len l₁⟩ ==
        ("|" : String).get 0) = false := by
      rw [hget, show ("|" : String).get 0 = '|' from rfl]
      exact beq_eq_false_iff_ne.2 (h c (List.mem_cons_self c l₂))
    rw [if_neg (by simp [hcne])]
    have hsub : (⟨String.utf8Len l₁⟩ : String.Pos) - 0 =
        ⟨String.utf8Len l₁⟩ := rfl
    have hnext : String.next ⟨l₁ ++ c :: l₂⟩ ⟨String.utf8Len l₁⟩ =
        ⟨String.utf8Len (l₁ ++ [c])⟩ := by
      rw [String.next_of_valid]
      simp
    rw [hsub, hnext]
    have happ : l₁ ++ c :: l₂ = (l₁ ++ [c]) ++ l₂ := by simp
    rw [happ]
    exact splitOnAux_no_pipe l₂ (l₁ ++ [c])
      (fun d hd => h d (List.mem_cons_of_mem c hd))

theorem splitOn_no_pipe (s : String) (h : ∀ c ∈ s.data, c ≠ '|') :
    s.splitOn ("|") = [s] := by
  obtain ⟨m⟩ := s
  unfold String.splitOn
  rw [if_neg (by decide)]
  have := splitOnAux_no_pipe m [] (by simpa using h)
  simpa using this

theorem trim_of_all_whitespace (s : String)
    (h : ∀ c ∈ s.data, c.isWhitespace = true) : s.trim = "" := by
  obtain ⟨m⟩ := s
  have hm : ∀ c ∈ m, c.isWhitespace = true := h
  have htake : m.takeWhile Char.isWhitespace = m :=
    List.takeWhile_eq_self_iff.2 (fun x hx => hm x hx)
  have h1 : Substring.takeWhileAux ⟨m⟩ (String.endPos ⟨m⟩)
      Char.isWhitespace 0 = ⟨String.utf8Len m⟩ := by
    have h0 := String.takeWhileAux_of_valid Char.isWhitespace [] m []
    simp only [List.nil_append, List.append_nil, String.utf8Len_nil,
      Nat.zero_add, htake] at h0
    simpa [String.endPos_eq] using h0
  show (String.extract ⟨m⟩
    (Substring.takeWhileAux ⟨m⟩ (String.endPos ⟨m⟩) Char.isWhitespace 0)
    (Substring.takeRightWhileAux ⟨m⟩
      (Substring.takeWhileAux ⟨m⟩ (String.endPos ⟨m⟩) Char.isWhitespace 0)
      Char.isWhitespace (String.endPos ⟨m⟩))) = ""
  rw [h1]
  have h2 : Substring.takeRightWhileAux ⟨m⟩ ⟨String.utf8Len m⟩
      Char.isWhitespace (String.endPos ⟨m⟩) = ⟨String.utf8Len m⟩ := by
    unfold Substring.takeRightWhileAux
    rw [dif_neg (by
      rw [String.endPos_eq]
      exact fun hlt => Nat.lt_irrefl _ hlt)]
    exact String.endPos_eq m
  rw [h2]
  show (if String.utf8Len m ≥ String.utf8Len m then ""
    else (⟨String.extract.go₁ m 0 ⟨String.utf8Len m⟩ ⟨String.utf8Len m⟩⟩ :
      String)) = ""
  rw [if_pos (Nat.le_refl _)]

unseal String.splitOnAux Substring.takeWhileAux Substring.takeRightWhileAux in
/-- C6: `nearby_list` splits its input on the pipe, trims each segment and
drops the empty or whitespace-only ones in order (the `filterMap`
characterization); `"A1|A2| |"` parses to `["A1", "A2"]`; and the empty or
any all-whitespace input parses to the empty list. -/
theorem claim_C6 :
    (∀ s : String, nearby_list s =
      (s.splitOn ("|")).filterMap (fun t =>
        if t.trim = "" then none else some t.trim)) ∧
    nearby_list ("A1|A2| |") = [("A1"), ("A2")] ∧
    nearby_list ("") = [] ∧
    (∀ s : String, (∀ c ∈ s.data, c.isWhitespace = true) →
      nearby_list s = []) := by
  refine ⟨?_, by decide, by decide, ?_⟩
  · intro s
    exact map_trim_filter_eq_filterMap _
  · intro s hws
    have hnp : ∀ c ∈ s.data, c ≠ '|' :=
      fun c hc heq => absurd (heq ▸ hws c hc) (by decide)
    unfold nearby_list
    rw [splitOn_no_pipe s hnp]
    simp [trim_of_all_whitespace s hws]

unseal String.splitOnAux Substring.takeWhileAux Substring.takeRightWhileAux in
/-- Witness for C6: the two-space string parses to the empty list. -/
theorem claim_C6_witness : nearby_list ("  ") = [] :=
  claim_C6.2.2.2 ("  ") (by decide)

end Summit
